import Mathlib

/-!
Verification development for `nebula-nursery.py`.

The script is an interactive wizard that drives `nebula-cert` to create a
certificate authority or sign node certificates, keeps the CA key pair in an
encrypted vault file `ca.crypt`, serves the node bundle over a token-gated
Flask route, and cleans the workspace on every exit path.

The embedding below translates the functions of `src/nebula-nursery.py` into
pure Lean definitions.  Operator answers to the sequential prompts become
fields of explicit input records; the file system is a list of file names in
the single working directory (the script only functions when it is run from
its own directory: it writes and globs all artifacts there); subprocess and
network effects are recorded as data in the result records.
-/

namespace NebulaNursery

/-- A byte, the unit of payload and key material in the vault model.
`ZMod 256` makes byte-wise encryption by key addition a bijection. -/
abbrev Byte := ZMod 256

/-- Modelled from the spec: the Fernet cipher used at lines 190/219/249 of
`nebula-nursery.py` comes from the external `cryptography` dependency and is
not part of this repository.  Spec §4.1 requires an authenticated encryption
scheme, so the model pairs the ciphertext with an authentication tag that
binds the key and the ciphertext; the tag is an ideal MAC, modelled as the
(key, ciphertext) pair itself, which is injective in both components. -/
structure FernetBlob where
  ct : List Byte
  tag : Byte × List Byte
deriving DecidableEq

/-- Modelled from the spec: the `seal` half of the Credential Vault
(`Fernet(key).encrypt(zip_data)` at line 219).  A fresh symmetric key is
chosen by the caller; encryption shifts every byte by the key and attaches
the authentication tag. -/
def fernetEncrypt (k : Byte) (x : List Byte) : FernetBlob :=
  { ct := x.map (fun b => b + k), tag := (k, x.map (fun b => b + k)) }

/-- Modelled from the spec: the `open` half of the Credential Vault
(`Fernet(key).decrypt(encrypted_zip)` at line 249).  Verifies the
authentication tag against the supplied key and the stored ciphertext;
`none` models the `DecryptionError` (`cryptography.fernet.InvalidToken`)
raised on any key or ciphertext mismatch. -/
def fernetDecrypt (k : Byte) (b : FernetBlob) : Option (List Byte) :=
  if b.tag = (k, b.ct) then some (b.ct.map (fun c => c - k)) else none

/-- C1: Vault round-trip.  For every byte payload `x` and the key `k`
generated at seal time, decrypting the sealed blob with `k` returns exactly
`x`; decrypting with any other key fails with a decryption error instead of
returning corrupted bytes; and any blob that opens successfully under a key
is exactly the sealing of the returned payload under that key, so a
corrupted blob can never yield corrupted plaintext. -/
theorem vault_seal_open_roundtrip_and_auth :
    (∀ (x : List Byte) (k : Byte), fernetDecrypt k (fernetEncrypt k x) = some x)
    ∧ (∀ (x : List Byte) (k k' : Byte), k' ≠ k →
        fernetDecrypt k' (fernetEncrypt k x) = none)
    ∧ (∀ (b : FernetBlob) (k : Byte) (y : List Byte),
        fernetDecrypt k b = some y → b = fernetEncrypt k y) := by
  refine ⟨?_, ?_, ?_⟩
  · intro x k
    have h : ((fun c => c - k) ∘ fun b => b + k) = (id : Byte → Byte) :=
      funext fun b => add_sub_cancel_right b k
    simp [fernetDecrypt, fernetEncrypt, List.map_map, h]
  · intro x k k' hk
    simp only [fernetDecrypt, fernetEncrypt]
    rw [if_neg]
    intro hcontra
    exact hk (Prod.mk.injEq _ _ _ _ ▸ hcontra).1.symm
  · intro b k y h
    unfold fernetDecrypt at h
    split at h
    · next htag =>
      obtain ⟨ct, tag⟩ := b
      simp only [Option.some.injEq] at h
      subst h
      simp only at htag
      subst htag
      have hct : ((fun b => b + k) ∘ fun c => c - k) = (id : Byte → Byte) :=
        funext fun c => sub_add_cancel c k
      simp [fernetEncrypt, List.map_map, hct]
    · exact absurd h (by simp)

/-- Witness for C1 at concrete inputs. -/
theorem vault_seal_open_roundtrip_and_auth_witness :
    fernetDecrypt 1 (fernetEncrypt 1 [7, 0, 255]) = some [7, 0, 255]
    ∧ ((2 : Byte) ≠ 1 ∧ fernetDecrypt 2 (fernetEncrypt 1 [7, 0, 255]) = none) :=
  ⟨vault_seal_open_roundtrip_and_auth.1 [7, 0, 255] 1,
   by decide,
   vault_seal_open_roundtrip_and_auth.2.1 [7, 0, 255] 1 2 (by decide)⟩

/-! ## Validators (`Nebula.test_ipv4`, `Nebula.test_ipv4_subnet`)

Both validators are `re.match` against digit-group regexes.  The model
restricts the `\d` character class to ASCII digits (`Char.isDigit`); Python
`re` without `re.ASCII` would also admit non-ASCII Unicode decimal digits,
an alphabet irrelevant to the IPv4 strings these validators are specified
over. -/

/-- One regex group `\d{1,3}` followed by a literal non-digit separator
`sep`, under Python backtracking semantics.  Greedy matching with
backtracking of a bounded digit class followed by a non-digit literal is
equivalent to: the maximal digit run at this position has length 1 to 3 and
is followed by `sep`.  (Taking fewer digits than the maximal run leaves a
digit, never `sep`, as the next character; a maximal run longer than 3
likewise leaves a digit after any permitted take of 1 to 3.) -/
def chompGroupSep (sep : Char) (l : List Char) : Option (List Char) :=
  if 1 ≤ (l.takeWhile Char.isDigit).length ∧ (l.takeWhile Char.isDigit).length ≤ 3 then
    match l.dropWhile Char.isDigit with
    | [] => none
    | c :: r => if c = sep then some r else none
  else none

/-- `Nebula.test_ipv4_subnet` (lines 100-107 of `nebula-nursery.py`):
`re.match(r"^\d{1,3}\.\d{1,3}\.\d{1,3}\.\d{1,3}\/\d{1,2}$", ip)`.
Python `$` without `re.ASCII`-independent `\Z` matches at the end of the
string and also just before a newline that is the last character.  The
trailing `\d{1,2}$` therefore matches exactly when the maximal digit run
of the remainder has length 1 or 2 and what follows it is empty or a
single final newline: taking fewer digits than the maximal run would put
`$` before a digit, which is neither the end nor a trailing newline, and
a longer maximal run cannot shrink below 1.  The Python function returns
`True` on a match and a truthy error string otherwise (the duck-typed
prompt-validator convention); `true`/`false` here model match/no-match. -/
def test_ipv4_subnet (s : String) : Bool :=
  match chompGroupSep '.' s.data with
  | none => false
  | some r1 =>
    match chompGroupSep '.' r1 with
    | none => false
    | some r2 =>
      match chompGroupSep '.' r2 with
      | none => false
      | some r3 =>
        match chompGroupSep '/' r3 with
        | none => false
        | some r4 =>
          decide (1 ≤ (r4.takeWhile Char.isDigit).length)
            && decide ((r4.takeWhile Char.isDigit).length ≤ 2)
            && (decide (r4.dropWhile Char.isDigit = [])
                || decide (r4.dropWhile Char.isDigit = ['\n']))

/-- The end-of-string-anchored variant of the subnet pattern: the matcher
the claimed shape describes, accepting digit groups with nothing at all
after the final digits.  This is not the source validator — Python `$`
also matches before one trailing newline, see `test_ipv4_subnet` — it
serves as a decision procedure for `Ipv4SubnetShape` at concrete
strings. -/
def matchSubnetStrict (s : String) : Bool :=
  match chompGroupSep '.' s.data with
  | none => false
  | some r1 =>
    match chompGroupSep '.' r1 with
    | none => false
    | some r2 =>
      match chompGroupSep '.' r2 with
      | none => false
      | some r3 =>
        match chompGroupSep '/' r3 with
        | none => false
        | some r4 =>
          decide (1 ≤ r4.length) && decide (r4.length ≤ 2) && r4.all Char.isDigit

/-- `Nebula.test_ipv4` (lines 91-98 of `nebula-nursery.py`):
`re.match(r"^\d{1,3}\.\d{1,3}\.\d{1,3}\.\d{1,3}", ip)` — anchored only at
the start.  The final `\d{1,3}` has no continuation, so it matches exactly
when at least one digit stands after the third dot; everything after is
unconstrained. -/
def test_ipv4 (s : String) : Bool :=
  match chompGroupSep '.' s.data with
  | none => false
  | some r1 =>
    match chompGroupSep '.' r1 with
    | none => false
    | some r2 =>
      match chompGroupSep '.' r2 with
      | none => false
      | some r3 =>
        match r3 with
        | [] => false
        | c :: _ => c.isDigit

/-- A group of ASCII digits whose length lies between `lo` and `hi`. -/
def DigitGroup (lo hi : Nat) (g : List Char) : Prop :=
  (∀ c ∈ g, c.isDigit = true) ∧ lo ≤ g.length ∧ g.length ≤ hi

/-- The shape the spec ascribes to the overlay-IP-with-subnet validator:
four 1-to-3-digit groups separated by dots, a slash, then 1 to 2 digits,
with nothing before or after. -/
def Ipv4SubnetShape (s : String) : Prop :=
  ∃ g1 g2 g3 g4 g5 : List Char,
    s.data = g1 ++ '.' :: (g2 ++ '.' :: (g3 ++ '.' :: (g4 ++ '/' :: g5)))
    ∧ DigitGroup 1 3 g1 ∧ DigitGroup 1 3 g2 ∧ DigitGroup 1 3 g3
    ∧ DigitGroup 1 3 g4 ∧ DigitGroup 1 2 g5

/-- The set of strings the source subnet validator actually accepts: the
dotted-quad-with-subnet shape, optionally followed by one trailing
newline, the extra acceptance coming from Python `$` matching just before
a final newline. -/
def Ipv4SubnetLineShape (s : String) : Prop :=
  ∃ g1 g2 g3 g4 g5 tail : List Char,
    s.data = g1 ++ '.' :: (g2 ++ '.' :: (g3 ++ '.' :: (g4 ++ '/' :: (g5 ++ tail))))
    ∧ DigitGroup 1 3 g1 ∧ DigitGroup 1 3 g2 ∧ DigitGroup 1 3 g3
    ∧ DigitGroup 1 3 g4 ∧ DigitGroup 1 2 g5
    ∧ (tail = [] ∨ tail = ['\n'])

/-- The shape accepted by the start-anchored lighthouse-IP validator: the
string begins with four dot-separated 1-to-3-digit groups, and arbitrary
characters may follow. -/
def Ipv4StartShape (s : String) : Prop :=
  ∃ g1 g2 g3 g4 rest : List Char,
    s.data = g1 ++ '.' :: (g2 ++ '.' :: (g3 ++ '.' :: (g4 ++ rest)))
    ∧ DigitGroup 1 3 g1 ∧ DigitGroup 1 3 g2 ∧ DigitGroup 1 3 g3 ∧ DigitGroup 1 3 g4

theorem takeWhile_append_cons (p : Char → Bool) (g : List Char) (x : Char)
    (r : List Char) (hg : ∀ c ∈ g, p c = true) (hx : p x = false) :
    (g ++ x :: r).takeWhile p = g := by
  induction g with
  | nil => simp [List.takeWhile_cons, hx]
  | cons a t ih =>
    have ha : p a = true := hg a (List.mem_cons_self a t)
    simp [List.takeWhile_cons, ha, ih fun c hc => hg c (List.mem_cons_of_mem a hc)]

theorem dropWhile_append_cons (p : Char → Bool) (g : List Char) (x : Char)
    (r : List Char) (hg : ∀ c ∈ g, p c = true) (hx : p x = false) :
    (g ++ x :: r).dropWhile p = x :: r := by
  induction g with
  | nil => simp [List.dropWhile_cons, hx]
  | cons a t ih =>
    have ha : p a = true := hg a (List.mem_cons_self a t)
    simp [List.dropWhile_cons, ha, ih fun c hc => hg c (List.mem_cons_of_mem a hc)]

theorem takeWhile_eq_self_of_all (p : Char → Bool) (l : List Char)
    (h : ∀ c ∈ l, p c = true) : l.takeWhile p = l := by
  induction l with
  | nil => rfl
  | cons a t ih =>
    have ha : p a = true := h a (List.mem_cons_self a t)
    simp [List.takeWhile_cons, ha, ih fun c hc => h c (List.mem_cons_of_mem a hc)]

theorem dropWhile_eq_nil_of_all (p : Char → Bool) (l : List Char)
    (h : ∀ c ∈ l, p c = true) : l.dropWhile p = [] := by
  induction l with
  | nil => rfl
  | cons a t ih =>
    have ha : p a = true := h a (List.mem_cons_self a t)
    simp [List.dropWhile_cons, ha, ih fun c hc => h c (List.mem_cons_of_mem a hc)]

/-- Characterisation of one digit group plus separator step of the regex. -/
theorem chompGroupSep_eq_some_iff (sep : Char) (hsep : sep.isDigit = false)
    (l r : List Char) :
    chompGroupSep sep l = some r ↔ ∃ g, l = g ++ sep :: r ∧ DigitGroup 1 3 g := by
  constructor
  · intro h
    unfold chompGroupSep at h
    split at h
    · next hlen =>
      split at h
      · exact absurd h (by simp)
      · next c rest hdrop =>
        split at h
        · next hc =>
          simp only [Option.some.injEq] at h
          subst h
          subst hc
          refine ⟨l.takeWhile Char.isDigit, ?_, ?_, hlen.1, hlen.2⟩
          · conv_lhs => rw [← List.takeWhile_append_dropWhile (p := Char.isDigit) (l := l)]
            rw [hdrop]
          · exact fun c hc => List.mem_takeWhile_imp hc
        · exact absurd h (by simp)
    · exact absurd h (by simp)
  · rintro ⟨g, rfl, hdig, hlo, hhi⟩
    have htake : ((g ++ sep :: r).takeWhile Char.isDigit) = g :=
      takeWhile_append_cons _ _ _ _ hdig hsep
    have hdrop : ((g ++ sep :: r).dropWhile Char.isDigit) = sep :: r :=
      dropWhile_append_cons _ _ _ _ hdig hsep
    unfold chompGroupSep
    rw [htake, hdrop]
    simp [hlo, hhi]

/-- The end-anchored matcher decides exactly the claimed
dotted-quad-with-subnet shape. -/
theorem matchSubnetStrict_iff_shape (s : String) :
    matchSubnetStrict s = true ↔ Ipv4SubnetShape s := by
  constructor
  · intro h
    unfold matchSubnetStrict at h
    split at h
    · exact absurd h (by simp)
    · next r1 h1 =>
      split at h
      · exact absurd h (by simp)
      · next r2 h2 =>
        split at h
        · exact absurd h (by simp)
        · next r3 h3 =>
          split at h
          · exact absurd h (by simp)
          · next r4 h4 =>
            obtain ⟨g1, e1, d1⟩ := (chompGroupSep_eq_some_iff '.' (by decide) _ _).mp h1
            obtain ⟨g2, e2, d2⟩ := (chompGroupSep_eq_some_iff '.' (by decide) _ _).mp h2
            obtain ⟨g3, e3, d3⟩ := (chompGroupSep_eq_some_iff '.' (by decide) _ _).mp h3
            obtain ⟨g4, e4, d4⟩ := (chompGroupSep_eq_some_iff '/' (by decide) _ _).mp h4
            simp only [Bool.and_eq_true, decide_eq_true_eq, List.all_eq_true] at h
            refine ⟨g1, g2, g3, g4, r4, ?_, d1, d2, d3, d4, ?_, h.1.1, h.1.2⟩
            · rw [e1, e2, e3, e4]
            · exact h.2
  · rintro ⟨g1, g2, g3, g4, g5, hs, d1, d2, d3, d4, d5⟩
    have h1 : chompGroupSep '.' s.data
        = some (g2 ++ '.' :: (g3 ++ '.' :: (g4 ++ '/' :: g5))) :=
      (chompGroupSep_eq_some_iff '.' (by decide) _ _).mpr ⟨g1, hs, d1⟩
    have h2 : chompGroupSep '.' (g2 ++ '.' :: (g3 ++ '.' :: (g4 ++ '/' :: g5)))
        = some (g3 ++ '.' :: (g4 ++ '/' :: g5)) :=
      (chompGroupSep_eq_some_iff '.' (by decide) _ _).mpr ⟨g2, rfl, d2⟩
    have h3 : chompGroupSep '.' (g3 ++ '.' :: (g4 ++ '/' :: g5))
        = some (g4 ++ '/' :: g5) :=
      (chompGroupSep_eq_some_iff '.' (by decide) _ _).mpr ⟨g3, rfl, d3⟩
    have h4 : chompGroupSep '/' (g4 ++ '/' :: g5) = some g5 :=
      (chompGroupSep_eq_some_iff '/' (by decide) _ _).mpr ⟨g4, rfl, d4⟩
    unfold matchSubnetStrict
    simp only [h1, h2, h3, h4, Bool.and_eq_true, decide_eq_true_eq, List.all_eq_true]
    exact ⟨⟨d5.2.1, d5.2.2⟩, d5.1⟩

/-- The source subnet validator accepts exactly the
dotted-quad-with-subnet shape up to one trailing newline. -/
theorem test_ipv4_subnet_iff_line_shape (s : String) :
    test_ipv4_subnet s = true ↔ Ipv4SubnetLineShape s := by
  constructor
  · intro h
    unfold test_ipv4_subnet at h
    split at h
    · exact absurd h (by simp)
    · next r1 h1 =>
      split at h
      · exact absurd h (by simp)
      · next r2 h2 =>
        split at h
        · exact absurd h (by simp)
        · next r3 h3 =>
          split at h
          · exact absurd h (by simp)
          · next r4 h4 =>
            obtain ⟨g1, e1, d1⟩ := (chompGroupSep_eq_some_iff '.' (by decide) _ _).mp h1
            obtain ⟨g2, e2, d2⟩ := (chompGroupSep_eq_some_iff '.' (by decide) _ _).mp h2
            obtain ⟨g3, e3, d3⟩ := (chompGroupSep_eq_some_iff '.' (by decide) _ _).mp h3
            obtain ⟨g4, e4, d4⟩ := (chompGroupSep_eq_some_iff '/' (by decide) _ _).mp h4
            simp only [Bool.and_eq_true, Bool.or_eq_true, decide_eq_true_eq] at h
            refine ⟨g1, g2, g3, g4, r4.takeWhile Char.isDigit,
              r4.dropWhile Char.isDigit, ?_, d1, d2, d3, d4,
              ⟨fun c hc => List.mem_takeWhile_imp hc, h.1.1, h.1.2⟩, h.2⟩
            rw [e1, e2, e3, e4, List.takeWhile_append_dropWhile]
  · rintro ⟨g1, g2, g3, g4, g5, tail, hs, d1, d2, d3, d4, d5, htail⟩
    have h1 : chompGroupSep '.' s.data
        = some (g2 ++ '.' :: (g3 ++ '.' :: (g4 ++ '/' :: (g5 ++ tail)))) :=
      (chompGroupSep_eq_some_iff '.' (by decide) _ _).mpr ⟨g1, hs, d1⟩
    have h2 : chompGroupSep '.' (g2 ++ '.' :: (g3 ++ '.' :: (g4 ++ '/' :: (g5 ++ tail))))
        = some (g3 ++ '.' :: (g4 ++ '/' :: (g5 ++ tail))) :=
      (chompGroupSep_eq_some_iff '.' (by decide) _ _).mpr ⟨g2, rfl, d2⟩
    have h3 : chompGroupSep '.' (g3 ++ '.' :: (g4 ++ '/' :: (g5 ++ tail)))
        = some (g4 ++ '/' :: (g5 ++ tail)) :=
      (chompGroupSep_eq_some_iff '.' (by decide) _ _).mpr ⟨g3, rfl, d3⟩
    have h4 : chompGroupSep '/' (g4 ++ '/' :: (g5 ++ tail)) = some (g5 ++ tail) :=
      (chompGroupSep_eq_some_iff '/' (by decide) _ _).mpr ⟨g4, rfl, d4⟩
    have htake : (g5 ++ tail).takeWhile Char.isDigit = g5 := by
      rcases htail with rfl | rfl
      · rw [List.append_nil]
        exact takeWhile_eq_self_of_all _ _ d5.1
      · exact takeWhile_append_cons _ _ _ _ d5.1 (by decide)
    have hdrop : (g5 ++ tail).dropWhile Char.isDigit = tail := by
      rcases htail with rfl | rfl
      · rw [List.append_nil]
        exact dropWhile_eq_nil_of_all _ _ d5.1
      · exact dropWhile_append_cons _ _ _ _ d5.1 (by decide)
    unfold test_ipv4_subnet
    simp only [h1, h2, h3, h4, htake, hdrop, Bool.and_eq_true, Bool.or_eq_true,
      decide_eq_true_eq]
    refine ⟨⟨d5.2.1, d5.2.2⟩, ?_⟩
    rcases htail with rfl | rfl
    · exact Or.inl rfl
    · exact Or.inr rfl

/-- The lighthouse-IP validator accepts exactly strings that begin with
four dot-separated digit groups. -/
theorem test_ipv4_iff_shape (s : String) :
    test_ipv4 s = true ↔ Ipv4StartShape s := by
  constructor
  · intro h
    unfold test_ipv4 at h
    split at h
    · exact absurd h (by simp)
    · next r1 h1 =>
      split at h
      · exact absurd h (by simp)
      · next r2 h2 =>
        split at h
        · exact absurd h (by simp)
        · next r3 h3 =>
          cases r3 with
          | nil => exact absurd h (by simp)
          | cons c rest =>
            have hc : c.isDigit = true := h
            obtain ⟨g1, e1, d1⟩ := (chompGroupSep_eq_some_iff '.' (by decide) _ _).mp h1
            obtain ⟨g2, e2, d2⟩ := (chompGroupSep_eq_some_iff '.' (by decide) _ _).mp h2
            obtain ⟨g3, e3, d3⟩ := (chompGroupSep_eq_some_iff '.' (by decide) _ _).mp h3
            refine ⟨g1, g2, g3, [c], rest, ?_, d1, d2, d3,
              fun x hx => by simpa [List.eq_of_mem_singleton hx] using hc,
              by simp, by simp⟩
            rw [e1, e2, e3]
            simp
  · rintro ⟨g1, g2, g3, g4, rest, hs, d1, d2, d3, d4⟩
    obtain ⟨c, g4t, rfl⟩ : ∃ c g4t, g4 = c :: g4t := by
      cases g4 with
      | nil => exact absurd d4.2.1 (by simp)
      | cons c t => exact ⟨c, t, rfl⟩
    simp only [List.cons_append] at hs
    have h1 : chompGroupSep '.' s.data
        = some (g2 ++ '.' :: (g3 ++ '.' :: (c :: (g4t ++ rest)))) :=
      (chompGroupSep_eq_some_iff '.' (by decide) _ _).mpr ⟨g1, hs, d1⟩
    have h2 : chompGroupSep '.' (g2 ++ '.' :: (g3 ++ '.' :: (c :: (g4t ++ rest))))
        = some (g3 ++ '.' :: (c :: (g4t ++ rest))) :=
      (chompGroupSep_eq_some_iff '.' (by decide) _ _).mpr ⟨g2, rfl, d2⟩
    have h3 : chompGroupSep '.' (g3 ++ '.' :: (c :: (g4t ++ rest)))
        = some (c :: (g4t ++ rest)) :=
      (chompGroupSep_eq_some_iff '.' (by decide) _ _).mpr ⟨g3, rfl, d3⟩
    unfold test_ipv4
    simp only [h1, h2, h3]
    exact d4.1 c (List.mem_cons_self c g4t)

/-- C7 counterexample: Python `$` also matches just before one trailing
newline, so the source validator accepts "10.0.0.5/24\n", a string outside
the claimed shape (its last character is a newline, not a digit): the
validator does not accept exactly the strings of the claimed shape. -/
theorem subnet_trailing_newline_counterexample :
    test_ipv4_subnet "10.0.0.5/24\n" = true
    ∧ ¬ Ipv4SubnetShape "10.0.0.5/24\n" :=
  ⟨by decide,
   fun h => absurd ((matchSubnetStrict_iff_shape _).mpr h) (by decide)⟩

/-- C7 (amended): the overlay-IP-with-subnet validator accepts exactly the
strings of the shape four 1-to-3-digit groups separated by dots followed
by a slash and 1 to 2 digits, optionally followed by one trailing newline
(Python `$` also matches just before a final newline); in particular it
accepts "10.0.0.5/24" and "10.0.0.5/24\n", rejects "10.0.0.5" and
"not-an-ip/24", and, checking digit-group shape only, accepts the
out-of-range "999.999.999.999/24". -/
theorem test_ipv4_subnet_shape_up_to_newline :
    (∀ s : String, test_ipv4_subnet s = true ↔ Ipv4SubnetLineShape s)
    ∧ test_ipv4_subnet "10.0.0.5/24" = true
    ∧ test_ipv4_subnet "10.0.0.5/24\n" = true
    ∧ test_ipv4_subnet "10.0.0.5" = false
    ∧ test_ipv4_subnet "not-an-ip/24" = false
    ∧ test_ipv4_subnet "999.999.999.999/24" = true :=
  ⟨test_ipv4_subnet_iff_line_shape, by decide, by decide, by decide, by decide,
   by decide⟩

/-- C10: the lighthouse-IP validator `test_ipv4`, anchored only at the
start, accepts exactly the strings beginning with four dot-separated
1-to-3-digit groups — arbitrary trailing characters included, e.g.
"1.2.3.4garbage" and "10.0.0.5/24" — and is strictly weaker than the
overlay-IP-with-subnet validator `test_ipv4_subnet`. -/
theorem test_ipv4_lax_and_weaker_than_subnet :
    (∀ s : String, test_ipv4 s = true ↔ Ipv4StartShape s)
    ∧ test_ipv4 "1.2.3.4garbage" = true
    ∧ test_ipv4 "10.0.0.5/24" = true
    ∧ (∀ s : String, test_ipv4_subnet s = true → test_ipv4 s = true)
    ∧ test_ipv4 "10.0.0.5" = true ∧ test_ipv4_subnet "10.0.0.5" = false := by
  refine ⟨test_ipv4_iff_shape, by decide, by decide, ?_, by decide, by decide⟩
  intro s hs
  obtain ⟨g1, g2, g3, g4, g5, tail, e, d1, d2, d3, d4, d5, htail⟩ :=
    (test_ipv4_subnet_iff_line_shape s).mp hs
  exact (test_ipv4_iff_shape s).mpr
    ⟨g1, g2, g3, g4, '/' :: (g5 ++ tail), by rw [e], d1, d2, d3, d4⟩

/-- Witness for C10 at a concrete input. -/
theorem test_ipv4_lax_and_weaker_than_subnet_witness :
    test_ipv4_subnet "10.10.0.5/24" = true ∧ test_ipv4 "10.10.0.5/24" = true :=
  ⟨by decide,
   test_ipv4_lax_and_weaker_than_subnet.2.2.2.1 "10.10.0.5/24" (by decide)⟩

/-! ## Flow models

Operator answers to the sequential prompts are fields of input records;
values that a prompt validator guarantees (nonempty name, positive
duration) appear as hypotheses of the theorems.  Effects are recorded as
data: files written in the working directory, the argument vector handed
to `nebula-cert`, and the blob written to `ca.crypt`. -/

/-- How an invocation of one of the two operations ends.  `sysExit c msg`
models `raise SystemExit(msg)`; when the argument is a string the Python
interpreter prints it and terminates with status 1, so those raises are
modelled with code 1.  `raised msg` models an uncaught exception
(status 1 with a traceback).  `serving` means `sign_node` reached
`app.run` and blocks until the operator interrupts the process, whereupon
the `__main__` guard catches `KeyboardInterrupt` and calls `exit(0)`.
`unfinished` means the modelled operator input ran out before the flow
ended: the interactive session is still open and no exit has happened. -/
inductive OpOutcome where
  | finished
  | serving
  | sysExit (code : Nat) (msg : String)
  | raised (msg : String)
  | unfinished
deriving DecidableEq

/-- Process exit status produced by the `__main__` guard (lines 518-525)
for each way `main()` can end; `none` when the session has not ended. -/
def pythonExitStatus : OpOutcome → Option Nat
  | .finished => some 0
  | .serving => some 0
  | .sysExit c _ => some c
  | .raised _ => some 1
  | .unfinished => none

/-- The abort message of both confirmation-decline paths (lines 165, 420). -/
def rerunMsg : String := "Please re-run the script and enter new values."

/-- The message of the key-confirmation mismatch exception (line 211). -/
def keyMismatchMsg : String := "The key you entered does not match the key generated."

/-- Operator answers and environment for one `Nebula.create_ca` run.
`caName` has passed the nonempty validator and `caDurationDays` the
`int(x) > 0` validator of the prompts; `genKey` is the key from
`Fernet.generate_key()` (line 190); `keyEntered` is the confirmation key
pasted back by the operator, encoded to bytes (lines 197-208); `signerOk`
says whether the `nebula-cert ca` subprocess exits 0 (`check=True` raises
`CalledProcessError` otherwise). -/
structure CreateCAInput where
  exe : String
  caName : String
  caDurationDays : Nat
  confirmDetails : Bool
  genKey : Byte
  keyEntered : Byte
  signerOk : Bool

/-- Result of a modelled `create_ca`: outcome, files written in the working
directory in order, the blob written to `ca.crypt` when reached, and the
argument vector passed to `nebula-cert` when invoked. -/
structure CAResult where
  outcome : OpOutcome
  written : List String
  vaultBlob : Option FernetBlob
  caCmd : Option (List String)
deriving DecidableEq

/-- `Nebula.create_ca` (lines 125-225).  Steps, in source order: duration
is converted to hours (line 149); a declined summary raises `SystemExit`
with the re-run message (line 165) before anything is written; the signer
writes `ca.crt` and `ca.key` (lines 168-182; the script only functions
with the working directory equal to the script directory, so the
`os.path.join(self.script_dir, …)` out-paths and the later bare names
denote the same files); `ca.zip` is written (lines 185-187); the generated
key is shown and the operator re-enters it; on byte mismatch an exception
is raised (line 211) before `ca.crypt` exists; otherwise `ca.zip` is
encrypted under the generated key and written to `ca.crypt`
(lines 216-222).  `zipData` abstracts the bytes read back from `ca.zip`.
A failing signer is modelled as writing nothing of its own. -/
def create_ca (inp : CreateCAInput) (zipData : List Byte) : CAResult :=
  let durStr := toString (inp.caDurationDays * 24) ++ "h"
  let cmd := [inp.exe, "ca", "-name", inp.caName, "-duration", durStr,
              "-out-crt", "ca.crt", "-out-key", "ca.key"]
  if inp.confirmDetails = false then
    ⟨.sysExit 1 rerunMsg, [], none, none⟩
  else if inp.signerOk = false then
    ⟨.raised "CalledProcessError", [], none, some cmd⟩
  else if inp.keyEntered = inp.genKey then
    ⟨.finished, ["ca.crt", "ca.key", "ca.zip", "ca.crypt"],
     some (fernetEncrypt inp.genKey zipData), some cmd⟩
  else
    ⟨.raised keyMismatchMsg, ["ca.crt", "ca.key", "ca.zip"], none, some cmd⟩

/-- One lighthouse record as accumulated in `self.lighthouses`
(dictionaries with keys `nebula`, `public`, `port`). -/
structure Lighthouse where
  nebula : String
  publicAddr : String
  port : String
deriving DecidableEq

/-- The lighthouse collection loop (lines 334-386).  The loop is entered
with `add_another_lighthouse = True`.  In an iteration where the
collection is empty only a notice is printed and `add_another_lighthouse`
keeps its value `True`, so the entry prompts always follow; otherwise the
operator is asked whether to add another (the `confirms` stream) and on
`True` the next entry (the `entries` stream) is appended.  The recursion
carries the state at the top of an iteration whose flag is `True`; when
the operator answers `False` the `if add_another_lighthouse` body is
skipped and the `while` condition fails, returning the collection.
`fuel` bounds the modelled iterations; `none` means the loop has not
terminated within the modelled fuel or operator input. -/
def lighthouseLoop : Nat → List Lighthouse → List Bool → List Lighthouse →
    Option (List Lighthouse)
  | 0, _, _, _ => none
  | fuel + 1, lhs, confirms, entries =>
    if lhs.isEmpty then
      match entries with
      | [] => none
      | e :: es => lighthouseLoop fuel (lhs ++ [e]) confirms es
    else
      match confirms with
      | [] => none
      | false :: _ => some lhs
      | true :: cs =>
        match entries with
        | [] => none
        | e :: es => lighthouseLoop fuel (lhs ++ [e]) cs es

/-- Operator answers and environment for one `Nebula.sign_node` run.
`keyEntered` is the vault key typed by the operator; `nodeIp` has passed
`test_ipv4_subnet`; when `isLighthouse` is set, `lhPublicIp` and
`lhPublicPort` fill the automatically added first lighthouse entry
(lines 295-332), whose `nebula` field is the node overlay IP. -/
structure SignNodeInput where
  exe : String
  keyEntered : Byte
  isLighthouse : Bool
  nodeName : String
  nodeIp : String
  nodeGroups : String
  lhPublicIp : String
  lhPublicPort : String
  loopFuel : Nat
  loopConfirms : List Bool
  loopEntries : List Lighthouse
  confirmSummary : Bool
  signerOk : Bool

/-- Result of a modelled `sign_node`: outcome, files written in order, the
argument vector passed to `nebula-cert sign` when invoked, and the
lighthouse collection at the moment the summary/confirmation prompt is
shown (`none` when that step is never reached). -/
structure SignResult where
  outcome : OpOutcome
  written : List String
  signCmd : Option (List String)
  summaryLighthouses : Option (List Lighthouse)
deriving DecidableEq

/-- The seed of the lighthouse collection (lines 295-332): a lighthouse
node auto-adds itself — its own overlay IP with the supplied public
endpoint — as the first entry; otherwise the collection starts empty. -/
def initialLighthouses (inp : SignNodeInput) : List Lighthouse :=
  if inp.isLighthouse then [⟨inp.nodeIp, inp.lhPublicIp, inp.lhPublicPort⟩]
  else []

/-- The `nebula-cert sign` argument vector (lines 422-436): `-groups`
(with the comma-separated list quoted as one token) is appended only when
the group list is nonempty. -/
def signCmdFor (inp : SignNodeInput) : List String :=
  [inp.exe, "sign", "-name", inp.nodeName, "-ip", inp.nodeIp,
   "-out-crt", inp.nodeName ++ ".crt", "-out-key", inp.nodeName ++ ".key"]
  ++ (if inp.nodeGroups ≠ "" then ["-groups", "\"" ++ inp.nodeGroups ++ "\""]
      else [])

/-- `Nebula.sign_node` (lines 227-457).  Steps, in source order: the
operator-entered key decrypts `ca.crypt` (`vault`); `Fernet.decrypt`
raises `InvalidToken` on mismatch, which nothing catches; on success
`ca.zip` is written and `ca.crt`, `ca.key` extracted (lines 246-255);
the node prompts run; a lighthouse node seeds the collection
(`initialLighthouses`); the collection loop runs (lines 334-386); the
summary is shown and a decline raises `SystemExit` with the re-run
message (line 420); the signer is invoked with `signCmdFor`
(lines 422-441); finally `node.zip` is written and the Flask server
blocks in `app.run` until the operator interrupts (lines 443-457). -/
def sign_node (inp : SignNodeInput) (vault : FernetBlob) : SignResult :=
  match fernetDecrypt inp.keyEntered vault with
  | none => ⟨.raised "InvalidToken", [], none, none⟩
  | some _ =>
    match lighthouseLoop inp.loopFuel (initialLighthouses inp)
        inp.loopConfirms inp.loopEntries with
    | none => ⟨.unfinished, ["ca.zip", "ca.crt", "ca.key"], none, none⟩
    | some lhs =>
      if inp.confirmSummary = false then
        ⟨.sysExit 1 rerunMsg, ["ca.zip", "ca.crt", "ca.key"], none, some lhs⟩
      else if inp.signerOk = false then
        ⟨.raised "CalledProcessError", ["ca.zip", "ca.crt", "ca.key"],
         some (signCmdFor inp), some lhs⟩
      else
        ⟨.serving,
         ["ca.zip", "ca.crt", "ca.key", inp.nodeName ++ ".crt",
          inp.nodeName ++ ".key", "node.zip"],
         some (signCmdFor inp), some lhs⟩

/-- Pattern test for `glob("*<suf>")`: the name ends with `suf`.  (Shell
globbing also excludes names whose first character is a dot; every
artifact name at issue has a nonempty stem, so suffix matching is
faithful here.) -/
def globStar (suf : String) (name : String) : Bool :=
  decide (suf.data.length ≤ name.data.length)
    && decide (name.data.drop (name.data.length - suf.data.length) = suf.data)

/-- A file removed by `cleanup()` (lines 460-466): matched by `*.crt`,
`*.key` or `*.zip`. -/
def isArtifact (f : String) : Bool :=
  globStar ".crt" f || globStar ".key" f || globStar ".zip" f

/-- `cleanup()` (lines 460-466): removes every matching file from the
working directory, modelled as a list of file names. -/
def cleanup (fs : List String) : List String :=
  fs.filter fun f => !(isArtifact f)

/-- The `__main__` guard (lines 518-525): `main()` runs inside
`try/except KeyboardInterrupt/finally`.  The `finally` clause runs
`cleanup()` on every exit path — normal return, `SystemExit` from a
confirmation decline, `KeyboardInterrupt` (caught, `exit(0)`), and any
other exception.  `filesAtExit` is the working-directory content at the
moment `main()` terminates with outcome `out`; the pair is the directory
content after the guard and the process exit status. -/
def programFinal (filesAtExit : List String) (out : OpOutcome) :
    List String × Option Nat :=
  (cleanup filesAtExit, pythonExitStatus out)

/-- A response of the download route: either
`send_file("node.zip", as_attachment=True)` (status 200, archive bytes as
an attachment) or `abort(401)` (status 401, no body). -/
inductive HttpResponse where
  | fileAttachment (name : String)
  | clientError (status : Nat)
deriving DecidableEq

/-- `download_file` (lines 55-65): reads the `x` query parameter
(`request.args.get` yields `None` when absent, modelled as `none`) and
compares it with `str(download_uuid)`; only equality serves the archive. -/
def download_file (uuidStr : String) (codeParam : Option String) : HttpResponse :=
  match codeParam with
  | some code =>
    if code = uuidStr then .fileAttachment "node.zip" else .clientError 401
  | none => .clientError 401

/-- The route handler holds no mutable state: `download_uuid` is a
module-level constant assigned once at import (line 52) and never changed
or invalidated, so every request of a session is handled independently by
the same pure comparison. -/
def serveRequests (uuidStr : String) (reqs : List (Option String)) :
    List HttpResponse :=
  reqs.map (download_file uuidStr)

/-- What `main()` (lines 469-515) runs after the splash and the pre-clean
done by `Nebula.__init__`. -/
inductive MainAction where
  | ranCreateCA
  | ranSignNode
  | exitedEarly (code : Nat) (msg : String)
deriving DecidableEq

/-- Mode selection of `main()` (lines 493-515): an existing `ca.crypt`
forces sign mode; if the operator declines to sign a new node, `main`
raises `SystemExit` with the removal instruction (string message, hence
process status 1); without a vault file the CA-creation flow runs. -/
def mainSelect (caCryptExists : Bool) (confirmSignNew : Bool) : MainAction :=
  if caCryptExists then
    if confirmSignNew then .ranSignNode
    else .exitedEarly 1
      "Please remove ca.crypt before signing a new certificate authority."
  else .ranCreateCA

/-! ## Claim theorems for the flows -/

/-- C2: the key-confirmation gate of `create_ca`: on a byte-for-byte
mismatch between the operator-entered confirmation key and the generated
key the flow aborts with the mismatch exception and the vault file
`ca.crypt` is never written; `ca.crypt` is written — holding the archive
encrypted under the generated key — only when the confirmation key
compares equal. -/
theorem create_ca_key_confirmation_gate (inp : CreateCAInput)
    (zipData : List Byte) :
    (inp.keyEntered ≠ inp.genKey →
        "ca.crypt" ∉ (create_ca inp zipData).written
      ∧ (create_ca inp zipData).vaultBlob = none)
    ∧ (inp.keyEntered ≠ inp.genKey → inp.confirmDetails = true →
        inp.signerOk = true →
        (create_ca inp zipData).outcome = .raised keyMismatchMsg)
    ∧ (inp.keyEntered = inp.genKey → inp.confirmDetails = true →
        inp.signerOk = true →
        (create_ca inp zipData).written = ["ca.crt", "ca.key", "ca.zip", "ca.crypt"]
      ∧ (create_ca inp zipData).vaultBlob
          = some (fernetEncrypt inp.genKey zipData)) := by
  by_cases hk : inp.keyEntered = inp.genKey <;>
    cases hc : inp.confirmDetails <;>
      cases hs : inp.signerOk <;>
        simp_all [create_ca]

/-- Witness for C2 at concrete inputs. -/
theorem create_ca_key_confirmation_gate_witness :
    ((2 : Byte) ≠ 1
      ∧ "ca.crypt" ∉ (create_ca ⟨"nebula-cert", "home-ca", 10, true, 1, 2, true⟩ [9]).written)
    ∧ ((create_ca ⟨"nebula-cert", "home-ca", 10, true, 1, 1, true⟩ [9]).vaultBlob
        = some (fernetEncrypt 1 [9])) :=
  ⟨⟨by decide,
    ((create_ca_key_confirmation_gate ⟨"nebula-cert", "home-ca", 10, true, 1, 2, true⟩ [9]).1
      (by decide)).1⟩,
   ((create_ca_key_confirmation_gate ⟨"nebula-cert", "home-ca", 10, true, 1, 1, true⟩ [9]).2.2
      rfl rfl rfl).2⟩

/-- C8: whenever `create_ca` invokes the external signer, the argument
vector is exactly the nine-token `nebula-cert ca` call of lines 168-182,
whose `-duration` argument is the integer product `duration_days * 24`
rendered in decimal and suffixed with "h". -/
theorem create_ca_duration_days_to_hours (inp : CreateCAInput)
    (zipData : List Byte) (cmd : List String) :
    inp.caName ≠ "" → 0 < inp.caDurationDays →
    (create_ca inp zipData).caCmd = some cmd →
    cmd = [inp.exe, "ca", "-name", inp.caName, "-duration",
           toString (inp.caDurationDays * 24) ++ "h",
           "-out-crt", "ca.crt", "-out-key", "ca.key"]
    ∧ cmd.get? 4 = some "-duration"
    ∧ cmd.get? 5 = some (toString (inp.caDurationDays * 24) ++ "h") := by
  intro _ _ h
  have hcmd : cmd = [inp.exe, "ca", "-name", inp.caName, "-duration",
      toString (inp.caDurationDays * 24) ++ "h",
      "-out-crt", "ca.crt", "-out-key", "ca.key"] := by
    cases hc : inp.confirmDetails <;> cases hs : inp.signerOk <;>
      by_cases hk : inp.keyEntered = inp.genKey <;>
        simp_all [create_ca]
  subst hcmd
  exact ⟨rfl, rfl, rfl⟩

/-- Witness for C8 at concrete inputs: 3650 days become 87600 hours. -/
theorem create_ca_duration_days_to_hours_witness :
    ("home-ca" : String) ≠ "" ∧ 0 < 3650
    ∧ (create_ca ⟨"nebula-cert", "home-ca", 3650, true, 1, 1, true⟩ []).caCmd
        = some ["nebula-cert", "ca", "-name", "home-ca", "-duration", "87600h",
                "-out-crt", "ca.crt", "-out-key", "ca.key"]
    ∧ ["nebula-cert", "ca", "-name", "home-ca", "-duration", "87600h",
       "-out-crt", "ca.crt", "-out-key", "ca.key"].get? 5 = some "87600h" :=
  ⟨by decide, by decide, by decide,
   ((create_ca_duration_days_to_hours
      ⟨"nebula-cert", "home-ca", 3650, true, 1, 1, true⟩ [] _
      (by decide) (by decide) (by decide)).2.2.trans (by decide))⟩

/-- C9: mode selection of `main`: an existing `ca.crypt` forces sign mode
and CA creation is never entered; declining the sign prompt then exits
with the manual-removal message; with no vault file on disk the mode is CA
creation. -/
theorem mode_selection_vault_presence (caCryptExists confirmSignNew : Bool) :
    (caCryptExists = true →
        mainSelect caCryptExists confirmSignNew ≠ .ranCreateCA
      ∧ (confirmSignNew = false →
          mainSelect caCryptExists confirmSignNew = .exitedEarly 1
            "Please remove ca.crypt before signing a new certificate authority.")
      ∧ (confirmSignNew = true →
          mainSelect caCryptExists confirmSignNew = .ranSignNode))
    ∧ (caCryptExists = false →
        mainSelect caCryptExists confirmSignNew = .ranCreateCA) := by
  cases caCryptExists <;> cases confirmSignNew <;> simp [mainSelect]

/-- Witness for C9 at concrete inputs. -/
theorem mode_selection_vault_presence_witness :
    (mainSelect true false = .exitedEarly 1
      "Please remove ca.crypt before signing a new certificate authority.")
    ∧ mainSelect false true = .ranCreateCA :=
  ⟨((mode_selection_vault_presence true false).1 rfl).2.1 rfl,
   (mode_selection_vault_presence false true).2 rfl⟩

/-- C3: the download route serves the archive as an attachment exactly for
requests whose token equals the session download token; a mismatched,
empty or missing token yields status 401 and no archive; the handler is
stateless, so a whole request sequence is served by the same comparison
and every request carrying the correct token succeeds, however many. -/
theorem download_route_token_gate (uuidStr : String)
    (reqs : List (Option String)) :
    serveRequests uuidStr reqs = reqs.map (download_file uuidStr)
    ∧ (∀ code, code = some uuidStr →
        download_file uuidStr code = .fileAttachment "node.zip")
    ∧ (∀ code, code ≠ some uuidStr →
        download_file uuidStr code = .clientError 401)
    ∧ (uuidStr ≠ "" → download_file uuidStr (some "") = .clientError 401)
    ∧ download_file uuidStr none = .clientError 401
    ∧ ((∀ r ∈ reqs, r = some uuidStr) →
        ∀ resp ∈ serveRequests uuidStr reqs,
          resp = .fileAttachment "node.zip") := by
  refine ⟨rfl, ?_, ?_, ?_, rfl, ?_⟩
  · rintro _ rfl
    simp [download_file]
  · intro code hne
    match code with
    | none => rfl
    | some c =>
      have : ¬c = uuidStr := fun h => hne (by rw [h])
      simp [download_file, this]
  · intro hne
    simp [download_file, Ne.symm hne]
  · intro hall resp hresp
    obtain ⟨r, hr, rfl⟩ := List.mem_map.mp hresp
    rw [hall r hr]
    simp [download_file]

/-- Witness for C3: a session token served twice, then refused on a
mismatched, an empty and a missing token. -/
theorem download_route_token_gate_witness :
    serveRequests "7f1b" [some "7f1b", some "7f1b"]
      = [.fileAttachment "node.zip", .fileAttachment "node.zip"]
    ∧ download_file "7f1b" (some "wrong") = .clientError 401
    ∧ download_file "7f1b" (some "") = .clientError 401
    ∧ download_file "7f1b" none = .clientError 401 := by
  refine ⟨?_, ?_, ?_, (download_route_token_gate "7f1b" []).2.2.2.2.1⟩
  · have h := (download_route_token_gate "7f1b" [some "7f1b", some "7f1b"]).2.2.2.2.2
      (by intro r hr; simpa using hr)
    have h1 := (download_route_token_gate "7f1b" []).2.1 (some "7f1b") rfl
    simp [serveRequests, h1]
  · exact (download_route_token_gate "7f1b" []).2.2.1 (some "wrong") (by decide)
  · exact (download_route_token_gate "7f1b" []).2.2.2.1 (by decide)

/-- C4: cleanup is a guaranteed exit action: whatever outcome `main()`
ends with — normal completion, confirmation decline, interrupt, or fatal
error — the `finally` clause filters the workspace, after which no
`*.crt`, `*.key` or `*.zip` artifact remains, every non-artifact file
survives, and in particular the persisted vault file `ca.crypt` (not
matched by any of the three patterns) is the surviving artifact. -/
theorem cleanup_on_every_exit_path (filesAtExit : List String)
    (out : OpOutcome) :
    (∀ f ∈ (programFinal filesAtExit out).1, isArtifact f = false)
    ∧ (∀ f ∈ filesAtExit, isArtifact f = false →
        f ∈ (programFinal filesAtExit out).1)
    ∧ ("ca.crypt" ∈ filesAtExit → "ca.crypt" ∈ (programFinal filesAtExit out).1)
    ∧ isArtifact "ca.crypt" = false
    ∧ isArtifact "ca.crt" = true ∧ isArtifact "ca.key" = true
    ∧ isArtifact "ca.zip" = true ∧ isArtifact "node.zip" = true
    ∧ (∀ name : String, isArtifact (name ++ ".crt") = true
        ∧ isArtifact (name ++ ".key") = true) := by
  refine ⟨?_, ?_, ?_, by decide, by decide, by decide, by decide, by decide, ?_⟩
  · intro f hf
    have h := List.mem_filter.mp hf
    simpa using h.2
  · intro f hf hart
    exact List.mem_filter.mpr ⟨hf, by simp [hart]⟩
  · intro h
    exact List.mem_filter.mpr ⟨h, by decide⟩
  · intro name
    have h : ∀ suf : String, globStar suf (name ++ suf) = true := by
      intro suf
      simp only [globStar, String.data_append, List.length_append,
        Bool.and_eq_true, decide_eq_true_eq]
      refine ⟨by omega, ?_⟩
      have he : name.data.length + suf.data.length - suf.data.length
          = name.data.length := by omega
      rw [he, List.drop_left]
    exact ⟨by simp [isArtifact, h ".crt"], by simp [isArtifact, h ".key"]⟩

/-- Witness for C4 at a concrete workspace content and exit path. -/
theorem cleanup_on_every_exit_path_witness :
    ("ca.crypt" ∈ ["ca.crypt", "ca.crt", "node.zip"])
    ∧ "ca.crypt" ∈ (programFinal ["ca.crypt", "ca.crt", "node.zip"]
        (OpOutcome.sysExit 1 rerunMsg)).1 :=
  ⟨by decide,
   (cleanup_on_every_exit_path ["ca.crypt", "ca.crt", "node.zip"]
      (OpOutcome.sysExit 1 rerunMsg)).2.2.1 (by decide)⟩

/-- C5 counterexample: at a concrete run in which the operator declines the
CA summary, `create_ca` raises `SystemExit` with the re-run message — a
string argument, for which the Python interpreter prints the message and
terminates with status 1.  The exit status is therefore not 0, refuting
the claim that a decline terminates with exit code 0 and that a non-zero
status occurs only on a signing-tool or decryption failure. -/
theorem decline_exit_code_counterexample :
    (create_ca ⟨"nebula-cert", "home-ca", 3650, false, 1, 1, true⟩ []).outcome
      = OpOutcome.sysExit 1 rerunMsg
    ∧ pythonExitStatus
        (create_ca ⟨"nebula-cert", "home-ca", 3650, false, 1, 1, true⟩ []).outcome
      ≠ some 0 :=
  ⟨rfl, by decide⟩

/-- C5 (amended): when the operator rejects a confirmation summary — in CA
creation or in node signing — the flow aborts via `SystemExit` with the
message instructing a re-run and the process terminates with exit code 1
(Python exits with status 1 for a `SystemExit` carrying a string message);
exit code 0 occurs on normal completion and on interrupt-terminated
serving. -/
theorem decline_aborts_with_rerun_message (inp : CreateCAInput)
    (zipData : List Byte) (sinp : SignNodeInput) (vault : FernetBlob)
    (lhs : List Lighthouse) :
    (inp.confirmDetails = false →
        (create_ca inp zipData).outcome = .sysExit 1 rerunMsg
      ∧ pythonExitStatus (create_ca inp zipData).outcome = some 1)
    ∧ ((sign_node sinp vault).summaryLighthouses = some lhs →
        sinp.confirmSummary = false →
        (sign_node sinp vault).outcome = .sysExit 1 rerunMsg
      ∧ pythonExitStatus (sign_node sinp vault).outcome = some 1)
    ∧ pythonExitStatus .finished = some 0
    ∧ pythonExitStatus .serving = some 0 := by
  refine ⟨?_, ?_, rfl, rfl⟩
  · intro hc
    constructor <;> simp [create_ca, hc, pythonExitStatus]
  · intro hsum hc
    have hout : (sign_node sinp vault).outcome = .sysExit 1 rerunMsg := by
      unfold sign_node at hsum ⊢
      split at hsum
      · simp at hsum
      · split at hsum
        · simp at hsum
        · simp [hc]
    exact ⟨hout, by rw [hout]; rfl⟩

/-- Witness for the amended C5 at concrete inputs. -/
theorem decline_aborts_with_rerun_message_witness :
    (false = false)
    ∧ (create_ca ⟨"nebula-cert", "edge-ca", 30, false, 1, 1, true⟩ [4]).outcome
        = OpOutcome.sysExit 1 rerunMsg :=
  ⟨rfl,
   ((decline_aborts_with_rerun_message
      ⟨"nebula-cert", "edge-ca", 30, false, 1, 1, true⟩ [4]
      ⟨"nebula-cert", 1, false, "laptop", "10.10.0.5/24", "", "", "", 0, [], [],
        true, true⟩
      (fernetEncrypt 1 [4]) []).1 rfl).1⟩

/-- Auxiliary invariant of the lighthouse loop: every terminating run of
the loop returns a non-empty collection, because the only `return` site
(the operator declining another entry) is guarded by the collection being
non-empty, and an empty collection only re-prompts. -/
theorem lighthouseLoop_result_nonempty (fuel : Nat) :
    ∀ (lhs : List Lighthouse) (confirms : List Bool)
      (entries out : List Lighthouse),
      lighthouseLoop fuel lhs confirms entries = some out → out ≠ [] := by
  induction fuel with
  | zero =>
    intro lhs confirms entries out h
    exact absurd h (by simp [lighthouseLoop])
  | succ n ih =>
    intro lhs confirms entries out h
    unfold lighthouseLoop at h
    split at h
    · cases entries with
      | nil => exact absurd h (by simp)
      | cons e es => exact ih _ _ _ _ h
    · next hne =>
      cases confirms with
      | nil => exact absurd h (by simp)
      | cons c cs =>
        cases c with
        | false =>
          simp only [Option.some.injEq] at h
          subst h
          simpa using hne
        | true =>
          cases entries with
          | nil => exact absurd h (by simp)
          | cons e es => exact ih _ _ _ _ h

/-- C6: whenever the sign-node flow reaches the summary/confirmation step
the accumulated lighthouse collection is non-empty: the collection loop
re-prompts for an entry whenever the collection is empty instead of
honouring a decline, so no terminating run of it yields zero lighthouses. -/
theorem summary_lighthouses_never_empty :
    (∀ (fuel : Nat) (lhs : List Lighthouse) (confirms : List Bool)
        (entries out : List Lighthouse),
        lighthouseLoop fuel lhs confirms entries = some out → out ≠ [])
    ∧ (∀ (inp : SignNodeInput) (vault : FernetBlob) (lhs : List Lighthouse),
        (sign_node inp vault).summaryLighthouses = some lhs → lhs ≠ []) := by
  refine ⟨lighthouseLoop_result_nonempty, ?_⟩
  intro inp vault lhs h
  unfold sign_node at h
  split at h
  · simp at h
  · split at h
    · simp at h
    · next lhs' hloop =>
      have hl : lhs' = lhs := by
        by_cases hc : inp.confirmSummary = false <;>
          by_cases hs : inp.signerOk = false <;>
            simp [hc, hs] at h <;> exact h
      subst hl
      exact lighthouseLoop_result_nonempty _ _ _ _ _ hloop

/-- Witness for C6: a run that starts with an empty collection, is forced
to take one entry, and then declines, ends with that single entry. -/
theorem summary_lighthouses_never_empty_witness :
    lighthouseLoop 2 [] [false] [⟨"10.10.0.1", "vpn.example.com", "4242"⟩]
      = some [⟨"10.10.0.1", "vpn.example.com", "4242"⟩]
    ∧ ([⟨"10.10.0.1", "vpn.example.com", "4242"⟩] : List Lighthouse) ≠ [] :=
  ⟨by decide,
   summary_lighthouses_never_empty.1 2 [] [false]
     [⟨"10.10.0.1", "vpn.example.com", "4242"⟩] _ (by decide)⟩

end NebulaNursery
